import Mathlib

/-!
Verification of the SSE loss module of the xgboost component
(`src/mlpack/methods/xgboost/loss_functions/sse_loss.hpp`).

The C++ class `mlpack::ensemble::SSELoss` is a stateless bundle of pure
numeric functions parameterized by two regularization scalars `alpha` (L1)
and `lambda` (L2) fixed at construction.  We embed it shallowly: Armadillo
vectors become `List ℚ`, `arma::accu` becomes `List.sum`, the inclusive
`subvec(begin, end)` becomes drop-then-take, and each member function
becomes a Lean definition mirroring the source line by line.
-/

namespace Mlpack

/-- The SSELoss object: the L1 parameter `alpha` and the L2 parameter
`lambda`, in the order of the C++ constructor `SSELoss(alpha, lambda)`.
The default constructor corresponds to `SSELoss.mk 0 0`. -/
structure SSELoss where
  alpha : ℚ
  lambda : ℚ
deriving DecidableEq

namespace SSELoss

/-- Member `SSELoss::InitialPrediction(values)`: returns 0 for an empty
vector, otherwise `arma::accu(values) / values.n_elem` (the mean). -/
def InitialPrediction (values : List ℚ) : ℚ :=
  if values.length = 0 then 0
  else values.sum / (values.length : ℚ)

/-- Member `SSELoss::Gradients(observed, values)`: the elementwise
difference `values - observed`. -/
def Gradients (observed values : List ℚ) : List ℚ :=
  List.zipWith (fun o v => v - o) observed values

/-- Member `SSELoss::Hessians(observed, values)`: a vector of ones with
`values.n_elem` entries; the `observed` argument is unused in the source. -/
def Hessians (observed values : List ℚ) : List ℚ :=
  List.replicate values.length 1

/-- Member `SSELoss::Residuals(observed, f)`: the elementwise difference
`observed - f`. -/
def Residuals (observed f : List ℚ) : List ℚ :=
  List.zipWith (fun o x => o - x) observed f

/-- Armadillo inclusive subvector `v.subvec(b, e)`: the entries at indices
`b` through `e` inclusive. -/
def subvec (v : List ℚ) (b e : Nat) : List ℚ :=
  (v.drop b).take (e - b + 1)

/-- Private member `SSELoss::ApplyL1(sumGradients)`: soft-thresholding of
the gradient sum by `alpha`, exactly as the if/else-if chain in the source. -/
def ApplyL1 (loss : SSELoss) (sumGradients : ℚ) : ℚ :=
  if sumGradients > loss.alpha then sumGradients - loss.alpha
  else if sumGradients < -loss.alpha then sumGradients + loss.alpha
  else 0

/-- Member `SSELoss::OutputValue(gradients, hessians)`:
`-ApplyL1(accu(gradients)) / (accu(hessians) + lambda)`. -/
def OutputValue (loss : SSELoss) (gradients hessians : List ℚ) : ℚ :=
  -loss.ApplyL1 gradients.sum / (hessians.sum + loss.lambda)

/-- Member `SSELoss::SimilarityScore(observed, residuals, begin, end)`:
computes `gradients = Gradients(observed.subvec(b, e), residuals.subvec(b, e))`
and `hessians = Hessians(observed.subvec(b, e), residuals.subvec(b, e))`,
then returns `pow(ApplyL1(accu(gradients)), 2) / (accu(hessians) + lambda)`. -/
def SimilarityScore (loss : SSELoss) (observed residuals : List ℚ)
    (b e : Nat) : ℚ :=
  let gradients := Gradients (subvec observed b e) (subvec residuals b e)
  let hessians := Hessians (subvec observed b e) (subvec residuals b e)
  (loss.ApplyL1 gradients.sum) ^ 2 / (hessians.sum + loss.lambda)

/-- The variant of SimilarityScore described by the spec's words for
claim C1: the per-range gradients and hessians are computed as
`Gradients(residuals[b..e], residuals[b..e])` and
`Hessians(residuals[b..e], residuals[b..e])`, i.e. the residuals slice is
passed as both the observed and the values argument.  Kept only to compare
with the definition taken from the source. -/
def SimilarityScoreClaimed (loss : SSELoss) (observed residuals : List ℚ)
    (b e : Nat) : ℚ :=
  let gradients := Gradients (subvec residuals b e) (subvec residuals b e)
  let hessians := Hessians (subvec residuals b e) (subvec residuals b e)
  (loss.ApplyL1 gradients.sum) ^ 2 / (hessians.sum + loss.lambda)

end SSELoss

end Mlpack

open Mlpack Mlpack.SSELoss


theorem hessians_sum (o v : List ℚ) : (Hessians o v).sum = (v.length : ℚ) := by
  simp [Hessians]

theorem subvec_length (v : List ℚ) (b e : ℕ) (hbe : b ≤ e) (he : e < v.length) :
    (subvec v b e).length = e - b + 1 := by
  simp [subvec]
  omega

theorem gradients_sum (o v : List ℚ) (h : o.length = v.length) :
    (Gradients o v).sum = v.sum - o.sum := by
  unfold Gradients
  induction o generalizing v with
  | nil =>
    cases v with
    | nil => simp
    | cons x xs => simp at h
  | cons a as ih =>
    cases v with
    | nil => simp at h
    | cons x xs =>
      simp only [List.zipWith_cons_cons, List.sum_cons]
      rw [ih xs (by simpa using h)]
      ring

theorem applyL1_alpha_zero (L s : ℚ) : (SSELoss.mk 0 L).ApplyL1 s = s := by
  unfold ApplyL1
  split_ifs with h1 h2
  · simp
  · simp
  · simp only [SSELoss.mk] at h1 h2
    push_neg at h1 h2
    have h2' : (0:ℚ) ≤ s := by simpa using h2
    have : s = 0 := le_antisymm h1 h2'
    simp [this]

theorem applyL1_neg (loss : SSELoss) (ha : 0 ≤ loss.alpha) (s : ℚ) :
    loss.ApplyL1 (-s) = -loss.ApplyL1 s := by
  unfold ApplyL1
  rcases lt_trichotomy loss.alpha s with h | h | h
  · rw [if_neg (by linarith), if_pos (by linarith), if_pos h]
    ring
  · rw [if_neg (by linarith), if_neg (by linarith), if_neg (by linarith),
      if_neg (by linarith)]
    ring
  · rcases lt_or_le s (-loss.alpha) with h2 | h2
    · rw [if_pos (by linarith), if_neg (by linarith), if_pos h2]
      ring
    · rw [if_neg (by linarith), if_neg (by linarith), if_neg (by linarith),
        if_neg (by linarith)]
      ring

theorem sum_map_neg_list (l : List ℚ) : (l.map (fun x => -x)).sum = -l.sum := by
  induction l with
  | nil => simp
  | cons a as ih => simp [ih]; ring

theorem getD_zipWith (g : ℚ → ℚ → ℚ) (xs ys : List ℚ) (i : ℕ)
    (hx : i < xs.length) (hy : i < ys.length) :
    (List.zipWith g xs ys).getD i 0 = g (xs.getD i 0) (ys.getD i 0) := by
  induction xs generalizing ys i with
  | nil => simp at hx
  | cons a as ih =>
    cases ys with
    | nil => simp at hy
    | cons b bs =>
      cases i with
      | zero => simp [List.getD]
      | succ n =>
        simp only [List.zipWith_cons_cons, List.getD_cons_succ]
        exact ih bs n (by simpa using hx) (by simpa using hy)

theorem residuals_eq_neg_map_gradients (observed f : List ℚ) :
    Residuals observed f = (Gradients observed f).map (fun x => -x) := by
  unfold Residuals Gradients
  induction observed generalizing f with
  | nil => simp
  | cons o os ih =>
    cases f with
    | nil => simp
    | cons x xs =>
      simp only [List.zipWith_cons_cons, List.map_cons, List.cons.injEq]
      exact ⟨by ring, ih xs⟩

/-- Claim C1 counterexample: on observed = [1,2,3,4], residuals = [1,1,1,1],
begin = 0, end = 3 with the default loss, the source's SimilarityScore returns 9,
while the claimed computation (residuals slice passed as both Gradients arguments)
returns 0; the per-range gradient sum actually computed is -6, not 0. -/
theorem C1_counterexample :
    (SSELoss.mk 0 0).SimilarityScore [1, 2, 3, 4] [1, 1, 1, 1] 0 3 = 9 ∧
    (SSELoss.mk 0 0).SimilarityScoreClaimed [1, 2, 3, 4] [1, 1, 1, 1] 0 3 = 0 ∧
    (Gradients (subvec ([1, 2, 3, 4] : List ℚ) 0 3)
        (subvec ([1, 1, 1, 1] : List ℚ) 0 3)).sum = -6 := by
  refine ⟨?_, ?_, ?_⟩
  · norm_num [SSELoss.SimilarityScore, SSELoss.Gradients, SSELoss.Hessians,
      SSELoss.subvec, SSELoss.ApplyL1]
  · norm_num [SSELoss.SimilarityScoreClaimed, SSELoss.Gradients, SSELoss.Hessians,
      SSELoss.subvec, SSELoss.ApplyL1]
  · norm_num [SSELoss.Gradients, SSELoss.subvec]

/-- Claim C1 (amended): SimilarityScore computes its per-range gradients as
Gradients(observed[begin..end], residuals[begin..end]), so the per-range gradient
sum is sum(residuals[begin..end]) - sum(observed[begin..end]) (not always 0), and
the score is ApplyL1 of that sum squared over (end - begin + 1) + lambda. -/
theorem C1_similarity_gradient_formula (loss : SSELoss) (observed residuals : List ℚ)
    (b e : ℕ) (hlen : observed.length = residuals.length) (hbe : b ≤ e)
    (he : e < observed.length) :
    (Gradients (subvec observed b e) (subvec residuals b e)).sum
        = (subvec residuals b e).sum - (subvec observed b e).sum ∧
    loss.SimilarityScore observed residuals b e =
      (loss.ApplyL1 ((subvec residuals b e).sum - (subvec observed b e).sum)) ^ 2 /
        (((e - b + 1 : ℕ) : ℚ) + loss.lambda) := by
  have he' : e < residuals.length := hlen ▸ he
  have hlo : (subvec observed b e).length = e - b + 1 := subvec_length _ _ _ hbe he
  have hlr : (subvec residuals b e).length = e - b + 1 := subvec_length _ _ _ hbe he'
  have hsum : (Gradients (subvec observed b e) (subvec residuals b e)).sum
      = (subvec residuals b e).sum - (subvec observed b e).sum :=
    gradients_sum _ _ (hlo.trans hlr.symm)
  refine ⟨hsum, ?_⟩
  simp only [SimilarityScore]
  rw [hessians_sum, hsum, hlr]

/-- Claim C1 amended, witness at loss (0, 0), observed = [1,2,3,4],
residuals = [1,1,1,1], begin = 0, end = 3. -/
theorem C1_similarity_gradient_formula_witness :
    (Gradients (subvec ([1, 2, 3, 4] : List ℚ) 0 3) (subvec ([1, 1, 1, 1] : List ℚ) 0 3)).sum
        = (subvec ([1, 1, 1, 1] : List ℚ) 0 3).sum - (subvec ([1, 2, 3, 4] : List ℚ) 0 3).sum ∧
    (SSELoss.mk 0 0).SimilarityScore [1, 2, 3, 4] [1, 1, 1, 1] 0 3 =
      ((SSELoss.mk 0 0).ApplyL1 ((subvec ([1, 1, 1, 1] : List ℚ) 0 3).sum -
          (subvec ([1, 2, 3, 4] : List ℚ) 0 3).sum)) ^ 2 /
        (((3 - 0 + 1 : ℕ) : ℚ) + (SSELoss.mk 0 0).lambda) :=
  C1_similarity_gradient_formula (SSELoss.mk 0 0) [1, 2, 3, 4] [1, 1, 1, 1] 0 3
    (by simp) (by norm_num) (by simp)

/-- Claim C2: for observed = [1,2,3,4], residuals = [1,1,1,1], begin = 0, end = 3,
the per-range gradient sum is -6 and the hessian sum is 4; SimilarityScore is 9
for alpha = 0, lambda = 0, is 6 for alpha = 0, lambda = 2, and is 25/4 = 6.25 for
alpha = 1, lambda = 0 (soft-thresholded gradient sum -5). -/
theorem C2_similarity_scenarios :
    (Gradients (subvec ([1, 2, 3, 4] : List ℚ) 0 3)
        (subvec ([1, 1, 1, 1] : List ℚ) 0 3)).sum = -6 ∧
    (Hessians (subvec ([1, 2, 3, 4] : List ℚ) 0 3)
        (subvec ([1, 1, 1, 1] : List ℚ) 0 3)).sum = 4 ∧
    (SSELoss.mk 0 0).SimilarityScore [1, 2, 3, 4] [1, 1, 1, 1] 0 3 = 9 ∧
    (SSELoss.mk 0 2).SimilarityScore [1, 2, 3, 4] [1, 1, 1, 1] 0 3 = 6 ∧
    (SSELoss.mk 1 0).ApplyL1 (-6) = -5 ∧
    (SSELoss.mk 1 0).SimilarityScore [1, 2, 3, 4] [1, 1, 1, 1] 0 3 = 25 / 4 := by
  refine ⟨?_, ?_, ?_, ?_, ?_, ?_⟩ <;>
    norm_num [SSELoss.SimilarityScore, SSELoss.Gradients, SSELoss.Hessians,
      SSELoss.subvec, SSELoss.ApplyL1]

/-- Claim C3: OutputValue(gradients, hessians) is
-ApplyL1(sum gradients) / (sum hessians + lambda); with alpha = 0 it is
-sum(gradients) / (sum(hessians) + lambda), and with alpha = 0, lambda = 0 it is
-sum(gradients) / sum(hessians), under the caller-enforced nonzero denominators. -/
theorem C3_output_value_formula (alpha L : ℚ) (g h : List ℚ)
    (hd1 : h.sum + L ≠ 0) (hd2 : h.sum ≠ 0) :
    (SSELoss.mk alpha L).OutputValue g h =
      -(SSELoss.mk alpha L).ApplyL1 g.sum / (h.sum + L) ∧
    (SSELoss.mk 0 L).OutputValue g h = -g.sum / (h.sum + L) ∧
    (SSELoss.mk 0 0).OutputValue g h = -g.sum / h.sum := by
  refine ⟨rfl, ?_, ?_⟩
  · simp only [OutputValue, applyL1_alpha_zero]
  · simp only [OutputValue, applyL1_alpha_zero]
    norm_num

/-- Claim C3 witness at alpha = 1, lambda = 2, gradients = [3], hessians = [4]. -/
theorem C3_output_value_formula_witness :
    (List.sum ([4] : List ℚ) + 2 ≠ 0) ∧ (List.sum ([4] : List ℚ) ≠ 0) ∧
    ((SSELoss.mk 1 2).OutputValue [3] [4] =
        -(SSELoss.mk 1 2).ApplyL1 (List.sum ([3] : List ℚ)) / (List.sum ([4] : List ℚ) + 2) ∧
      (SSELoss.mk 0 2).OutputValue [3] [4] =
        -List.sum ([3] : List ℚ) / (List.sum ([4] : List ℚ) + 2) ∧
      (SSELoss.mk 0 0).OutputValue [3] [4] =
        -List.sum ([3] : List ℚ) / List.sum ([4] : List ℚ)) :=
  ⟨by norm_num, by norm_num,
    C3_output_value_formula 1 2 [3] [4] (by norm_num) (by norm_num)⟩

/-- Claim C4: for alpha ≥ 0, ApplyL1(s) is s - alpha when s > alpha, s + alpha
when s < -alpha, and 0 otherwise; with alpha = 2: ApplyL1(5) = 3,
ApplyL1(-5) = -3, ApplyL1(1) = 0, ApplyL1(-1) = 0, ApplyL1(2) = 0. -/
theorem C4_applyL1_soft_threshold (alpha L s : ℚ) (ha : 0 ≤ alpha) :
    ((alpha < s → (SSELoss.mk alpha L).ApplyL1 s = s - alpha) ∧
     (s < -alpha → (SSELoss.mk alpha L).ApplyL1 s = s + alpha) ∧
     (¬ alpha < s → ¬ s < -alpha → (SSELoss.mk alpha L).ApplyL1 s = 0)) ∧
    ((SSELoss.mk 2 0).ApplyL1 5 = 3 ∧ (SSELoss.mk 2 0).ApplyL1 (-5) = -3 ∧
     (SSELoss.mk 2 0).ApplyL1 1 = 0 ∧ (SSELoss.mk 2 0).ApplyL1 (-1) = 0 ∧
     (SSELoss.mk 2 0).ApplyL1 2 = 0) := by
  refine ⟨⟨?_, ?_, ?_⟩, by norm_num [SSELoss.ApplyL1], by norm_num [SSELoss.ApplyL1],
    by norm_num [SSELoss.ApplyL1], by norm_num [SSELoss.ApplyL1],
    by norm_num [SSELoss.ApplyL1]⟩
  · intro h1
    simp only [ApplyL1]
    rw [if_pos h1]
  · intro h2
    simp only [ApplyL1]
    rw [if_neg (show ¬ alpha < s by linarith), if_pos h2]
  · intro h1 h2
    simp only [ApplyL1]
    rw [if_neg h1, if_neg h2]

/-- Claim C4 witness at alpha = 3, lambda = 0, s = 7. -/
theorem C4_applyL1_soft_threshold_witness :
    (0:ℚ) ≤ 3 ∧
    ((((3:ℚ) < 7 → (SSELoss.mk 3 0).ApplyL1 7 = 7 - 3) ∧
      ((7:ℚ) < -3 → (SSELoss.mk 3 0).ApplyL1 7 = 7 + 3) ∧
      (¬ (3:ℚ) < 7 → ¬ (7:ℚ) < -3 → (SSELoss.mk 3 0).ApplyL1 7 = 0)) ∧
     ((SSELoss.mk 2 0).ApplyL1 5 = 3 ∧ (SSELoss.mk 2 0).ApplyL1 (-5) = -3 ∧
      (SSELoss.mk 2 0).ApplyL1 1 = 0 ∧ (SSELoss.mk 2 0).ApplyL1 (-1) = 0 ∧
      (SSELoss.mk 2 0).ApplyL1 2 = 0)) :=
  ⟨by norm_num, C4_applyL1_soft_threshold 3 0 7 (by norm_num)⟩

/-- Claim C5: InitialPrediction returns the arithmetic mean (sum divided by
length) for every non-empty sequence, and returns 0 on the empty sequence as a
defined fallback value. -/
theorem C5_initial_prediction (values : List ℚ) (hne : values ≠ []) :
    SSELoss.InitialPrediction values = values.sum / (values.length : ℚ) ∧
    SSELoss.InitialPrediction ([] : List ℚ) = 0 := by
  constructor
  · simp only [InitialPrediction]
    rw [if_neg (by simpa [List.length_eq_zero] using hne)]
  · rfl

/-- Claim C5 witness at values = [2, 4]. -/
theorem C5_initial_prediction_witness :
    ([2, 4] : List ℚ) ≠ [] ∧
    (SSELoss.InitialPrediction [2, 4] = List.sum ([2, 4] : List ℚ) / ((2 : ℕ) : ℚ) ∧
     SSELoss.InitialPrediction ([] : List ℚ) = 0) :=
  ⟨by simp, C5_initial_prediction [2, 4] (by simp)⟩

/-- Claim C6: for equal-length sequences, Gradients(observed, values) is
values - observed element-wise, Residuals(observed, f) is observed - f
element-wise, and Residuals(observed, f) is the element-wise negation of
Gradients(observed, f). -/
theorem C6_gradients_residuals (observed values f : List ℚ)
    (h1 : observed.length = values.length) (h2 : observed.length = f.length) :
    (∀ i, i < observed.length →
      (Gradients observed values).getD i 0 = values.getD i 0 - observed.getD i 0) ∧
    (∀ i, i < observed.length →
      (Residuals observed f).getD i 0 = observed.getD i 0 - f.getD i 0) ∧
    Residuals observed f = (Gradients observed f).map (fun x => -x) := by
  refine ⟨?_, ?_, residuals_eq_neg_map_gradients observed f⟩
  · intro i hi
    exact getD_zipWith _ observed values i hi (h1 ▸ hi)
  · intro i hi
    exact getD_zipWith _ observed f i hi (h2 ▸ hi)

/-- Claim C6 witness at observed = [1, 2], values = [3, 4], f = [5, 6],
evaluated at index 0. -/
theorem C6_gradients_residuals_witness :
    ([1, 2] : List ℚ).length = ([3, 4] : List ℚ).length ∧
    ([1, 2] : List ℚ).length = ([5, 6] : List ℚ).length ∧
    (Gradients [1, 2] [3, 4]).getD 0 0 =
      ([3, 4] : List ℚ).getD 0 0 - ([1, 2] : List ℚ).getD 0 0 ∧
    (Residuals [1, 2] [5, 6]).getD 0 0 =
      ([1, 2] : List ℚ).getD 0 0 - ([5, 6] : List ℚ).getD 0 0 ∧
    Residuals ([1, 2] : List ℚ) [5, 6] = (Gradients ([1, 2] : List ℚ) [5, 6]).map (fun x => -x) := by
  have h := C6_gradients_residuals [1, 2] [3, 4] [5, 6] (by simp) (by simp)
  exact ⟨by simp, by simp, h.1 0 (by simp), h.2.1 0 (by simp), h.2.2⟩

/-- Claim C7: Hessians(observed, values) has length len(values), every entry is
1, and the result does not depend on the observed argument. -/
theorem C7_hessians_ones (observed observed2 values : List ℚ) :
    (Hessians observed values).length = values.length ∧
    (∀ x ∈ Hessians observed values, x = 1) ∧
    Hessians observed values = Hessians observed2 values := by
  refine ⟨by simp [Hessians], ?_, rfl⟩
  intro x hx
  exact List.eq_of_mem_replicate hx

/-- Claim C8: SimilarityScore is non-negative for every valid inclusive range
and all alpha ≥ 0, lambda ≥ 0. -/
theorem C8_similarity_nonneg (loss : SSELoss) (observed residuals : List ℚ)
    (b e : ℕ) (hbe : b ≤ e) (heo : e < observed.length)
    (her : e < residuals.length) (ha : 0 ≤ loss.alpha) (hl : 0 ≤ loss.lambda) :
    0 ≤ loss.SimilarityScore observed residuals b e := by
  simp only [SimilarityScore]
  apply div_nonneg (sq_nonneg _)
  rw [hessians_sum]
  positivity

/-- Claim C8 witness at loss (0, 0), observed = [1,2,3,4], residuals = [1,1,1,1],
begin = 0, end = 3. -/
theorem C8_similarity_nonneg_witness :
    (0 ≤ 3 ∧ 3 < ([1, 2, 3, 4] : List ℚ).length ∧ 3 < ([1, 1, 1, 1] : List ℚ).length ∧
      (0:ℚ) ≤ (SSELoss.mk 0 0).alpha ∧ (0:ℚ) ≤ (SSELoss.mk 0 0).lambda) ∧
    0 ≤ (SSELoss.mk 0 0).SimilarityScore [1, 2, 3, 4] [1, 1, 1, 1] 0 3 :=
  ⟨⟨by norm_num, by simp, by simp, le_refl 0, le_refl 0⟩,
    C8_similarity_nonneg (SSELoss.mk 0 0) [1, 2, 3, 4] [1, 1, 1, 1] 0 3
      (by norm_num) (by simp) (by simp) (le_refl 0) (le_refl 0)⟩

/-- Claim C9: for a valid inclusive range and lambda ≥ 0, the divisor of
SimilarityScore is (end - begin + 1) + lambda, which is at least 1, so the
division is never by zero; by contrast the OutputValue denominator
sum(hessians) + lambda is 0 for empty hessians with lambda = 0. -/
theorem C9_similarity_divisor (loss : SSELoss) (observed residuals : List ℚ)
    (b e : ℕ) (hbe : b ≤ e) (he : e < residuals.length) (hl : 0 ≤ loss.lambda) :
    (Hessians (subvec observed b e) (subvec residuals b e)).sum + loss.lambda
        = ((e - b + 1 : ℕ) : ℚ) + loss.lambda ∧
    1 ≤ (Hessians (subvec observed b e) (subvec residuals b e)).sum + loss.lambda ∧
    ([] : List ℚ).sum + (SSELoss.mk loss.alpha 0).lambda = 0 := by
  have hlr : (subvec residuals b e).length = e - b + 1 := subvec_length _ _ _ hbe he
  have hs : (Hessians (subvec observed b e) (subvec residuals b e)).sum
      = ((e - b + 1 : ℕ) : ℚ) := by rw [hessians_sum, hlr]
  refine ⟨by rw [hs], ?_, by simp⟩
  rw [hs]
  have h1 : (1:ℚ) ≤ ((e - b + 1 : ℕ) : ℚ) := by
    exact_mod_cast Nat.one_le_iff_ne_zero.mpr (by omega)
  linarith

/-- Claim C9 witness at loss (0, 0), observed = [1,2,3,4], residuals = [1,1,1,1],
begin = 1, end = 2. -/
theorem C9_similarity_divisor_witness :
    ((1 ≤ 2) ∧ 2 < ([1, 1, 1, 1] : List ℚ).length ∧ (0:ℚ) ≤ (SSELoss.mk 0 0).lambda) ∧
    ((Hessians (subvec ([1, 2, 3, 4] : List ℚ) 1 2) (subvec ([1, 1, 1, 1] : List ℚ) 1 2)).sum
          + (SSELoss.mk 0 0).lambda = ((2 - 1 + 1 : ℕ) : ℚ) + (SSELoss.mk 0 0).lambda ∧
      1 ≤ (Hessians (subvec ([1, 2, 3, 4] : List ℚ) 1 2)
          (subvec ([1, 1, 1, 1] : List ℚ) 1 2)).sum + (SSELoss.mk 0 0).lambda ∧
      ([] : List ℚ).sum + (SSELoss.mk (SSELoss.mk 0 0).alpha 0).lambda = 0) :=
  ⟨⟨by norm_num, by simp, le_refl 0⟩,
    C9_similarity_divisor (SSELoss.mk 0 0) [1, 2, 3, 4] [1, 1, 1, 1] 1 2
      (by norm_num) (by simp) (le_refl 0)⟩

/-- Claim C10: for alpha ≥ 0 and nonzero denominator, negating every gradient
negates OutputValue, because ApplyL1 is an odd function. -/
theorem C10_output_value_odd (loss : SSELoss) (g h : List ℚ)
    (ha : 0 ≤ loss.alpha) (hd : h.sum + loss.lambda ≠ 0) :
    loss.OutputValue (g.map (fun x => -x)) h = -loss.OutputValue g h := by
  simp only [OutputValue]
  rw [sum_map_neg_list, applyL1_neg loss ha]
  ring

/-- Claim C10 witness at loss (1, 2), gradients = [3], hessians = [4]. -/
theorem C10_output_value_odd_witness :
    ((0:ℚ) ≤ (SSELoss.mk 1 2).alpha ∧ List.sum ([4] : List ℚ) + (SSELoss.mk 1 2).lambda ≠ 0) ∧
    (SSELoss.mk 1 2).OutputValue (([3] : List ℚ).map (fun x => -x)) [4] =
      -(SSELoss.mk 1 2).OutputValue [3] [4] :=
  ⟨⟨by norm_num, by norm_num⟩,
    C10_output_value_odd (SSELoss.mk 1 2) [3] [4] (by norm_num) (by norm_num)⟩
